import Mathlib

/-!
# Verification of the SQL stored-procedure analyzer's response-repair pipeline
# and report renderers (src/doc_code/streamlitapp.py)

This file gives a shallow embedding of the parts of `streamlitapp.py` that the
specification's claims are about:

* a model of Python's `json.loads` (values, error kinds and the positions the
  repair code consumes) — the pipeline's stages are driven by the error kind
  ("Unterminated string" substring test) and by the error's line number, so
  both are modelled;
* the response cleaning at lines 346-350 (`strip`, code-fence removal);
* the parse/repair cascade at lines 352-444 (strict parse, unterminated-string
  line fix, outermost-brace regex extraction, regex field salvage and the
  `minimal_json` terminal record);
* the retry loop of `generate_response` (lines 302-334);
* `create_word_document` (lines 26-163) and the Markdown report built at
  lines 689-722, rendered into an abstract document model.

Machine integers do not occur; all arithmetic is on `Nat`.  Fallible Python
code (KeyError on a missing dict field, the parse cascade) is modelled with
`Option`/`Except`.
-/

/-- JSON values as produced by `json.loads`.  Object member order is Python's
dict insertion order.  Number literals are kept as their matched lexeme (no
claim compares numeric values, and this keeps the embedding exact). -/
inductive Json where
  | null : Json
  | bool (b : Bool) : Json
  | num (lit : String) : Json
  | str (s : String) : Json
  | arr (elems : List Json) : Json
  | obj (members : List (String × Json)) : Json

/-- The error kinds `json.JSONDecodeError` produces (pure-Python scanner),
plus an internal fuel marker that is unreachable for the fuel chosen by
`json_loads` (the fuel strictly exceeds the number of scanner steps). -/
inductive ErrKind where
  | expectingValue
  | unterminatedString
  | invalidControlChar
  | invalidEscape
  | invalidUnicodeEscape
  | expectingPropertyName
  | expectingColonDelimiter
  | expectingCommaDelimiter
  | extraData
  | fuelExhausted
deriving DecidableEq, Repr

/-- The message text of each error kind, as CPython formats it (prefixes; the
formatted positions/characters that follow play no role in the pipeline).
The source only tests `"Unterminated string" in str(e)` and parses the
`line N` component out of the message. -/
def ErrKind.message : ErrKind → String
  | .expectingValue => "Expecting value"
  | .unterminatedString => "Unterminated string starting at"
  | .invalidControlChar => "Invalid control character at"
  | .invalidEscape => "Invalid \\escape"
  | .invalidUnicodeEscape => "Invalid \\uXXXX escape"
  | .expectingPropertyName => "Expecting property name enclosed in double quotes"
  | .expectingColonDelimiter => "Expecting ':' delimiter"
  | .expectingCommaDelimiter => "Expecting ',' delimiter"
  | .extraData => "Extra data"
  | .fuelExhausted => "Internal parser fuel exhausted"

/-- A decode error: kind plus the absolute character position `pos` from which
`JSONDecodeError` computes `lineno`/`colno`. -/
structure PErr where
  kind : ErrKind
  pos : Nat
deriving DecidableEq, Repr

/-- JSON whitespace (`json.decoder.WHITESPACE`): space, tab, newline, carriage
return. -/
def isJsonWs (c : Char) : Bool :=
  c = ' ' || c = '\t' || c = '\n' || c = '\r'

/-- Skip JSON whitespace, advancing the absolute position. -/
def skipWs : List Char → Nat → List Char × Nat
  | [], p => ([], p)
  | c :: cs, p => if isJsonWs c then skipWs cs (p + 1) else (c :: cs, p)

/-- The single-character escapes of `json.decoder.BACKSLASH`. -/
def escChar? (c : Char) : Option Char :=
  if c = '"' then some '"'
  else if c = '\\' then some '\\'
  else if c = '/' then some '/'
  else if c = 'b' then some (Char.ofNat 8)
  else if c = 'f' then some (Char.ofNat 12)
  else if c = 'n' then some '\n'
  else if c = 'r' then some '\r'
  else if c = 't' then some '\t'
  else none

/-- Hex digit value, for `\uXXXX` escapes. -/
def hexVal? (c : Char) : Option Nat :=
  if '0' ≤ c ∧ c ≤ '9' then some (c.toNat - '0'.toNat)
  else if 'a' ≤ c ∧ c ≤ 'f' then some (c.toNat - 'a'.toNat + 10)
  else if 'A' ≤ c ∧ c ≤ 'F' then some (c.toNat - 'A'.toNat + 10)
  else none

/-- Model of `json.decoder.py_scanstring` (strict mode), entered just after the
opening quote.  `strBegin` is the position of that opening quote: CPython
reports "Unterminated string starting at" there, which is what the repair
stage's line arithmetic consumes.  Control characters (< 0x20) are rejected at
the position after the character; an unknown escape is rejected at the escape
letter's position.  Surrogate-pair joining of `\uXXXX` escapes is not modelled
(no claim involves unicode escapes); a single escape decodes via
`Char.ofNat`. -/
def pString (strBegin : Nat) : List Char → Nat → Except PErr (List Char × List Char × Nat)
  | [], _ => .error ⟨.unterminatedString, strBegin⟩
  | c :: rest, p =>
    if c = '"' then .ok ([], rest, p + 1)
    else if c = '\\' then
      match rest with
      | [] => .error ⟨.unterminatedString, strBegin⟩
      | e :: rest2 =>
        if e = 'u' then
          match rest2 with
          | h1 :: h2 :: h3 :: h4 :: rest3 =>
            match hexVal? h1, hexVal? h2, hexVal? h3, hexVal? h4 with
            | some v1, some v2, some v3, some v4 =>
              match pString strBegin rest3 (p + 6) with
              | .ok (acc, r, q) =>
                  .ok (Char.ofNat (((v1 * 16 + v2) * 16 + v3) * 16 + v4) :: acc, r, q)
              | .error err => .error err
            | _, _, _, _ => .error ⟨.invalidUnicodeEscape, p + 1⟩
          | _ => .error ⟨.invalidUnicodeEscape, p + 1⟩
        else
          match escChar? e with
          | some ch =>
            match pString strBegin rest2 (p + 2) with
            | .ok (acc, r, q) => .ok (ch :: acc, r, q)
            | .error err => .error err
          | none => .error ⟨.invalidEscape, p⟩
    else if c.toNat < 32 then .error ⟨.invalidControlChar, p⟩
    else
      match pString strBegin rest (p + 1) with
      | .ok (acc, r, q) => .ok (c :: acc, r, q)
      | .error err => .error err

/-- Digit run helpers for the number lexeme. -/
def isDigit (c : Char) : Bool := '0' ≤ c ∧ c ≤ '9'

/-- Model of `json.scanner.NUMBER_RE`:
`-?(0|[1-9]\d*)(\.\d+)?([eE][-+]?\d+)?`.  Returns the matched lexeme, the
rest, and the advanced position, or `none` when the regex does not match at
this position. -/
def pNumber (cs : List Char) (p : Nat) : Option (List Char × List Char × Nat) :=
  let (sign, cs1) :=
    match cs with
    | '-' :: t => (['-'], t)
    | _ => ([], cs)
  match cs1 with
  | [] => none
  | d :: t =>
    if ¬ isDigit d then none
    else
      let (ipart, rest1) :=
        if d = '0' then ([d], t)
        else (d :: t.takeWhile isDigit, t.dropWhile isDigit)
      let (fpart, rest2) :=
        match rest1 with
        | '.' :: f :: ft =>
          if isDigit f then
            ('.' :: f :: ft.takeWhile isDigit, ft.dropWhile isDigit)
          else ([], rest1)
        | _ => ([], rest1)
      let (epart, rest3) :=
        match rest2 with
        | e :: et =>
          if e = 'e' ∨ e = 'E' then
            let (esign, et2) :=
              match et with
              | s :: st => if s = '+' ∨ s = '-' then ([s], st) else ([], et)
              | [] => ([], et)
            match et2 with
            | g :: _ =>
              if isDigit g then
                (e :: esign ++ et2.takeWhile isDigit, et2.dropWhile isDigit)
              else ([], rest2)
            | [] => ([], rest2)
          else ([], rest2)
        | [] => ([], rest2)
      let lex := sign ++ ipart ++ fpart ++ epart
      some (lex, rest3, p + lex.length)

/-- Parser work items, so the whole mutually recursive scanner is one
structural recursion on fuel (kernel-reducible, used by `decide`/`rfl`
evaluations in the theorems below).

* `val cs p` — `scan_once` at position `p`;
* `members cs p acc` — inside `JSONObject`, `cs` starts right after the
  opening quote of the next key (at position `p`);
* `elems cs p acc` — inside `JSONArray`, `cs` starts at the next value
  (whitespace already skipped). -/
inductive PReq where
  | val (cs : List Char) (p : Nat)
  | members (cs : List Char) (p : Nat) (acc : List (String × Json))
  | elems (cs : List Char) (p : Nat) (acc : List Json)

/-- One engine for `scan_once` / `JSONObject` / `JSONArray` of the pure-Python
scanner, by structural recursion on fuel. -/
def pRun : Nat → PReq → Except PErr (Json × List Char × Nat)
  | 0, req =>
    match req with
    | .val _ p => .error ⟨.fuelExhausted, p⟩
    | .members _ p _ => .error ⟨.fuelExhausted, p⟩
    | .elems _ p _ => .error ⟨.fuelExhausted, p⟩
  | fuel + 1, .val cs p =>
    match cs with
    | [] => .error ⟨.expectingValue, p⟩
    | '"' :: rest =>
      match pString p rest (p + 1) with
      | .ok (chars, rest2, p2) => .ok (.str (String.mk chars), rest2, p2)
      | .error e => .error e
    | '{' :: rest =>
      -- JSONObject prologue: skip whitespace unless the next char is a quote,
      -- then accept `}` (empty), a key, or fail.
      let (cs1, p1) :=
        if rest.head? = some '"' then (rest, p + 1) else skipWs rest (p + 1)
      match cs1 with
      | '}' :: rest2 => .ok (.obj [], rest2, p1 + 1)
      | '"' :: rest2 => pRun fuel (.members rest2 (p1 + 1) [])
      | _ => .error ⟨.expectingPropertyName, p1⟩
    | '[' :: rest =>
      let (cs1, p1) := skipWs rest (p + 1)
      match cs1 with
      | ']' :: rest2 => .ok (.arr [], rest2, p1 + 1)
      | _ => pRun fuel (.elems cs1 p1 [])
    | _ =>
      if ['n', 'u', 'l', 'l'].isPrefixOf cs then
        .ok (.null, cs.drop 4, p + 4)
      else if ['t', 'r', 'u', 'e'].isPrefixOf cs then
        .ok (.bool true, cs.drop 4, p + 4)
      else if ['f', 'a', 'l', 's', 'e'].isPrefixOf cs then
        .ok (.bool false, cs.drop 5, p + 5)
      else
        match pNumber cs p with
        | some (lex, rest, p2) => .ok (.num (String.mk lex), rest, p2)
        | none =>
          if ['N', 'a', 'N'].isPrefixOf cs then
            .ok (.num "NaN", cs.drop 3, p + 3)
          else if ['I', 'n', 'f', 'i', 'n', 'i', 't', 'y'].isPrefixOf cs then
            .ok (.num "Infinity", cs.drop 8, p + 8)
          else if ['-', 'I', 'n', 'f', 'i', 'n', 'i', 't', 'y'].isPrefixOf cs then
            .ok (.num "-Infinity", cs.drop 9, p + 9)
          else .error ⟨.expectingValue, p⟩
  | fuel + 1, .members cs p acc =>
    -- `cs` begins right after the opening quote of a key at position `p - 1`.
    match pString (p - 1) cs p with
    | .error e => .error e
    | .ok (kchars, cs2, p2) =>
      let key := String.mk kchars
      let (cs3, p3) :=
        if cs2.head? = some ':' then (cs2, p2) else skipWs cs2 p2
      match cs3 with
      | ':' :: cs4 =>
        let (cs5, p5) := skipWs cs4 (p3 + 1)
        match pRun fuel (.val cs5 p5) with
        | .error e => .error e
        | .ok (v, cs6, p6) =>
          let acc2 := acc ++ [(key, v)]
          let (cs7, p7) := skipWs cs6 p6
          match cs7 with
          | '}' :: cs8 => .ok (.obj acc2, cs8, p7 + 1)
          | ',' :: cs8 =>
            let (cs9, p9) := skipWs cs8 (p7 + 1)
            match cs9 with
            | '"' :: cs10 => pRun fuel (.members cs10 (p9 + 1) acc2)
            | _ => .error ⟨.expectingPropertyName, p9⟩
          | _ => .error ⟨.expectingCommaDelimiter, p7⟩
      | _ => .error ⟨.expectingColonDelimiter, p3⟩
  | fuel + 1, .elems cs p acc =>
    match pRun fuel (.val cs p) with
    | .error e => .error e
    | .ok (v, cs2, p2) =>
      let acc2 := acc ++ [v]
      let (cs3, p3) := skipWs cs2 p2
      match cs3 with
      | ']' :: cs4 => .ok (.arr acc2, cs4, p3 + 1)
      | ',' :: cs4 =>
        let (cs5, p5) := skipWs cs4 (p3 + 1)
        pRun fuel (.elems cs5 p5 acc2)
      | _ => .error ⟨.expectingCommaDelimiter, p3⟩

/-- Model of `json.loads`: skip leading whitespace, scan one value, skip
trailing whitespace, and demand the end of input ("Extra data" otherwise).
The fuel `2 * length + 16` strictly dominates the number of engine steps
(every step either consumes input or returns), so `ErrKind.fuelExhausted` is
unreachable. -/
def json_loads (s : String) : Except PErr Json :=
  let cs := s.toList
  let (cs1, p1) := skipWs cs 0
  match pRun (2 * cs.length + 16) (.val cs1 p1) with
  | .error e => .error e
  | .ok (v, rest, p2) =>
    let (rest2, p3) := skipWs rest p2
    if rest2.isEmpty then .ok v else .error ⟨.extraData, p3⟩

/-- `JSONDecodeError.lineno`: number of newlines before `pos`, plus one. -/
def lineOf (s : String) (pos : Nat) : Nat :=
  (s.toList.take pos).count '\n' + 1

/-! ## Response cleaning (`streamlitapp.py` lines 346-350) -/

/-- `str.strip()`'s whitespace characters (the ASCII ones; no claim involves
non-ASCII whitespace). -/
def isPySpace (c : Char) : Bool :=
  c = ' ' || c = '\t' || c = '\n' || c = '\r' || c = Char.ofNat 11 || c = Char.ofNat 12

/-- Python `str.strip()`. -/
def py_strip (cs : List Char) : List Char :=
  ((cs.dropWhile isPySpace).reverse.dropWhile isPySpace).reverse

/-- The leading code-fence marker tested by `startswith("```json")`. -/
def fence_json : List Char := "```json".toList

/-- The trailing code-fence marker tested by `endswith("```")`. -/
def fence_close : List Char := "```".toList

/-- Lines 346-350: strip, then drop a leading ` ```json ` (7 characters) and a
trailing ` ``` ` (3 characters) when present. -/
def clean_response_list (cs : List Char) : List Char :=
  let t := py_strip cs
  let t2 := if fence_json.isPrefixOf t then t.drop 7 else t
  if fence_close.isSuffixOf t2 then t2.take (t2.length - 3) else t2

/-- The `cleaned_response` the parse cascade receives. -/
def clean_response (s : String) : String :=
  String.mk (clean_response_list s.toList)

/-! ## The parse/repair cascade (lines 352-444) -/

/-- Line 361: `int(str(e).split("line")[1].split("column")[0].strip())`.
`JSONDecodeError.__str__` is always `"%s: line %d column %d (char %d)"` and no
message kind contains the word "line", so the extraction always succeeds and
yields `lineno`; the `Option` records the source's `except` fallback (line
446), which would return `None` were the message ever shaped otherwise. -/
def parse_error_line (s : String) (e : PErr) : Option Nat :=
  some (lineOf s e.pos)

/-- Lines 374-385, the loop body over `cleaned_response.split('\n')`: the line
whose 1-based index equals the reported error line gets one `"` appended when
its quote count is odd; all other lines are kept.  The counter argument is the
distance to the error line (`n = 1` marks the error line). -/
def fix_unterminated_lines : List String → Nat → List String
  | [], _ => []
  | l :: ls, n =>
    (if n = 1 ∧ l.toList.count '"' % 2 = 1 then l ++ "\"" else l) ::
      fix_unterminated_lines ls (n - 1)

/-- Python's `text.split('\n')`: the segments between newlines, kept even when
empty (structurally recursive, unlike `String.splitOn`, so concrete pipeline
runs reduce in the kernel). -/
def py_split_nl : List Char → List (List Char)
  | [] => [[]]
  | c :: cs =>
    if c = '\n' then [] :: py_split_nl cs
    else
      match py_split_nl cs with
      | l :: ls => (c :: l) :: ls
      | [] => [[c]]

/-- Python's `'\n'.join(lines)`. -/
def join_nl : List String → String
  | [] => ""
  | [l] => l
  | l :: ls => l ++ "\n" ++ join_nl ls

/-- Lines 374-385: split, repair the reported line, re-join. -/
def fix_unterminated (s : String) (error_line : Nat) : String :=
  join_nl (fix_unterminated_lines ((py_split_nl s.toList).map String.mk) error_line)

/-- Lines 394-398: `re.compile(r'\{.*\}', re.DOTALL).search`.  The greedy
leftmost match runs from the first `{` to the last `}` when the former
precedes the latter, and there is no match otherwise. -/
def brace_extract (s : String) : Option String :=
  let cs := s.toList
  match cs.findIdx? (fun c => c = '{') with
  | none => none
  | some i =>
    match cs.reverse.findIdx? (fun c => c = '}') with
    | none => none
    | some rj =>
      let j := cs.length - 1 - rj
      if i < j then some (String.mk ((cs.take (j + 1)).drop i)) else none

/-- Match Python's literal-prefix: returns the rest after the given literal. -/
def dropLit : List Char → List Char → Option (List Char)
  | [], cs => some cs
  | _ :: _, [] => none
  | k :: ks, c :: cs => if c = k then dropLit ks cs else none

/-- `\s` of Python's `re` (the ASCII members; the scanned text is model output
and the claims involve only ASCII whitespace). -/
def isRegexWs (c : Char) : Bool :=
  c = ' ' || c = '\t' || c = '\n' || c = '\r' || c = Char.ofNat 11 || c = Char.ofNat 12

/-- Try `"key"\s*:\s*"([^"]+)"` anchored at the head of `cs`; returns the
capture.  The greedy `[^"]+` takes the maximal run of non-quote characters
and must be followed by a closing quote. -/
def match_field_at (key : List Char) (cs : List Char) : Option (List Char) :=
  match dropLit ('"' :: (key ++ ['"'])) cs with
  | none => none
  | some r1 =>
    match r1.dropWhile isRegexWs with
    | ':' :: r3 =>
      match r3.dropWhile isRegexWs with
      | '"' :: r5 =>
        match r5.takeWhile (fun c => c ≠ '"') with
        | [] => none
        | content =>
          match r5.drop content.length with
          | '"' :: _ => some content
          | _ => none
      | _ => none
    | _ => none

/-- `re.search`: leftmost position at which the field pattern matches. -/
def regex_field_search (key : List Char) : List Char → Option (List Char)
  | [] => none
  | c :: cs =>
    match match_field_at key (c :: cs) with
    | some r => some r
    | none => regex_field_search key cs

/-- Lines 407-416: `re.search(r'"<key>"\s*:\s*"([^"]+)"', cleaned_response)`,
returning the captured group. -/
def extract_field (key : String) (s : String) : Option String :=
  (regex_field_search key.toList s.toList).map String.mk

/-- Lines 419-437: the `minimal_json` terminal fallback record. -/
def minimal_json (cleaned : String) : Json :=
  let proc := (extract_field "procedure_name" cleaned).getD "Unknown"
  let comp := (extract_field "complexity" cleaned).getD "Medium"
  let scope := (extract_field "scope" cleaned).getD
    "This stored procedure's scope could not be determined due to parsing issues."
  Json.obj
    [("procedure_name", .str proc),
     ("complexity", .str comp),
     ("scope", .str scope),
     ("optimizations", .arr
       [Json.obj
         [("type", .str "General Optimization"),
          ("line_number", .str "N/A"),
          ("existing_logic", .str "-- Original procedure code (could not be parsed)"),
          ("optimized_logic", .str "-- See recommendations in the AI analysis text"),
          ("explanation", .str "The JSON response from the AI service could not be fully parsed. Please review the raw response in the debug section.")]]),
     ("summary", Json.obj
       [("original_performance_issues", .str "The JSON response could not be fully parsed."),
        ("optimization_impact", .str "See debug output for details."),
        ("implementation_difficulty", .str "N/A")])]

/-- Python's `in` on strings: substring test. -/
def substr_in (pat : List Char) : List Char → Bool
  | [] => pat.isEmpty
  | c :: cs => pat.isPrefixOf (c :: cs) || substr_in pat cs

/-- Lines 371-389: the unterminated-string repair stage.  It runs only when
`"Unterminated string" in str(e)`, repairs the reported line, and succeeds
only when the re-parse succeeds. -/
def stage_s1 (cleaned : String) (e : PErr) (error_line : Nat) : Option Json :=
  if substr_in "Unterminated string".toList e.kind.message.toList then
    match json_loads (fix_unterminated cleaned error_line) with
    | .ok v => some v
    | .error _ => none
  else none

/-- Lines 392-402: the outermost-brace extraction stage. -/
def stage_s3 (cleaned : String) : Option Json :=
  match brace_extract cleaned with
  | some t =>
    match json_loads t with
    | .ok v => some v
    | .error _ => none
  | none => none

/-- Lines 352-444: the whole parse/repair cascade on the cleaned response.
`none` occurs only on the `except repair_error` path (line 446), reachable
only if the error-line extraction failed. -/
def repair_pipeline (cleaned : String) : Option Json :=
  match json_loads cleaned with
  | .ok v => some v
  | .error e =>
    match parse_error_line cleaned e with
    | none => none
    | some error_line =>
      match stage_s1 cleaned e error_line with
      | some v => some v
      | none =>
        match stage_s3 cleaned with
        | some v => some v
        | none => some (minimal_json cleaned)

/-- The post-reply part of `analyze_stored_procedure`: clean the model's raw
reply, then run the cascade. -/
def analyze_model_reply (raw : String) : Option Json :=
  repair_pipeline (clean_response raw)

/-- Object field lookup, for observations on pipeline results. -/
def jsonGet (v : Json) (k : String) : Option Json :=
  match v with
  | .obj ms => (ms.find? (fun m => m.1 == k)).map (fun m => m.2)
  | _ => none

/-- Number of entries in a record's `optimizations` field. -/
def opt_count (v : Json) : Nat :=
  match jsonGet v "optimizations" with
  | some (.arr l) => l.length
  | _ => 0

/-- Modelled from the spec (§3, §8): "An `AnalysisRecord` is valid iff all
five top-level fields are present" — the validation the claims say stage S0
performs.  Written from the spec's words, to be compared with the source's
stage S0. -/
def spec_hasRequiredFields (v : Json) : Bool :=
  match v with
  | .obj ms =>
    ["procedure_name", "complexity", "scope", "optimizations", "summary"].all
      (fun k => ms.any (fun m => m.1 == k))
  | _ => false

/-! ## The retry loop of `generate_response` (lines 302-334) -/

/-- Observable outcome of the retry loop: the returned text (`none` models the
`return None` after exhausting retries), the number of transport attempts, the
`time.sleep` delays requested in order, and the message reported by the
terminal `st.error`. -/
structure InvokeTrace where
  result : Option String
  attempts : Nat
  sleeps : List Nat
  last_error : Option String
deriving DecidableEq, Repr

/-- The `while retry_count <= max_retries` loop.  `transport n` is the n-th
`bedrock.invoke_model` call (0-based), `.error` modelling any exception the
`except (ClientError, Exception)` clause catches. -/
def generate_response_loop (transport : Nat → Except String String) (max_retries : Nat) :
    Nat → Nat → InvokeTrace
  | retry_count, retry_delay =>
    if _h : retry_count ≤ max_retries then
      match transport retry_count with
      | .ok text => ⟨some text, 1, [], none⟩
      | .error msg =>
        if _h2 : max_retries < retry_count + 1 then ⟨none, 1, [], some msg⟩
        else
          let rest :=
            generate_response_loop transport max_retries (retry_count + 1) (retry_delay * 2)
          ⟨rest.result, rest.attempts + 1, retry_delay :: rest.sleeps, rest.last_error⟩
    else ⟨none, 0, [], none⟩
termination_by rc _ => max_retries + 1 - rc
decreasing_by omega

/-- `generate_response`: `max_retries = 3`, initial `retry_delay = 5`. -/
def generate_response (transport : Nat → Except String String) : InvokeTrace :=
  generate_response_loop transport 3 0 5

/-! ## The data model consumed by the renderers (§3 of the spec)

The renderers receive the parsed dict.  Step fields are read either by direct
indexing (`opt["type"]`, a `KeyError` when absent) or by `opt.get(key,
default)`; both are modelled with `Option` fields.  The top-level fields are
read only by direct indexing and every claim quantifies over records carrying
them, so they are plain fields. -/

structure OptStep where
  type : Option String
  line_number : Option String
  existing_logic : Option String
  optimized_logic : Option String
  explanation : Option String
deriving DecidableEq, Repr

structure SummaryInfo where
  original_performance_issues : Option String
  optimization_impact : Option String
  implementation_difficulty : Option String
deriving DecidableEq, Repr

structure AnalysisRecord where
  procedure_name : String
  complexity : String
  scope : String
  optimizations : List OptStep
  summary : SummaryInfo
deriving DecidableEq, Repr

/-! ## `create_word_document` (lines 26-163)

The document is rendered into an abstract element list: headings with their
level and centering, paragraphs with the run formatting the code sets (bold /
italic / monospaced), and the summary table with its rows, per-row shading
flags and header formatting.  Fonts, indents and column widths are visual
attributes no claim mentions and are not modelled. -/

inductive DocElem where
  | heading (level : Nat) (text : String) (centered : Bool)
  | par (text : String) (bold : Bool) (italic : Bool) (mono : Bool)
  | table (rows : List (List String)) (shaded : List Bool)
      (headerBold : Bool) (headerCentered : Bool)
deriving DecidableEq, Repr

/-- Line 115: the fixed header texts. -/
def table_headers : List String :=
  ["Type of Change", "Line Number", "Original Code Snippet",
   "Optimized Code Snippet", "Optimization Explanation"]

/-- Lines 97-104: one `table_data` entry, built with `.get` and its defaults
(`"N/A"` for type and line number, `""` for the three text columns). -/
def table_row (opt : OptStep) : List String :=
  [opt.type.getD "N/A", opt.line_number.getD "N/A", opt.existing_logic.getD "",
   opt.optimized_logic.getD "", opt.explanation.getD ""]

/-- Lines 51-90: one step section (direct indexing: a missing field raises). -/
def step_section (i : Nat) (opt : OptStep) : Option (List DocElem) := do
  let ty ← opt.type
  let ex ← opt.existing_logic
  let op ← opt.optimized_logic
  let expl ← opt.explanation
  pure [DocElem.heading 2 ("Step " ++ toString i ++ ": " ++ ty) false,
        .heading 3 "Existing Logic:" false,
        .par ex false false true,
        .heading 3 "Optimized Logic:" false,
        .par op false false true,
        .par expl false true false,
        .par (String.mk (List.replicate 40 '_')) false false false]

/-- The `enumerate(analysis["optimizations"], 1)` loop over step sections. -/
def step_sections : Nat → List OptStep → Option (List DocElem)
  | _, [] => some []
  | i, o :: os => do
    let s ← step_section i o
    let rest ← step_sections (i + 1) os
    pure (s ++ rest)

/-- Lines 146-154: row `i` is shaded iff `i > 0 and i % 2 == 0` (the header is
row 0). -/
def shading_flags (numRows : Nat) : List Bool :=
  (List.range numRows).map (fun i => decide (0 < i) && decide (i % 2 = 0))

/-- Lines 26-163 (`create_word_document`), without the trailing save-to-bytes.
Title, name/complexity/scope blocks, the step sections, then the summary
heading followed by either the table (rows = header plus one `table_row` per
step) or the "no suggestions" paragraph. -/
def create_word_document (a : AnalysisRecord) : Option (List DocElem) := do
  let steps ← step_sections 1 a.optimizations
  let table_data := a.optimizations.map table_row
  let tl :=
    if table_data.isEmpty then
      [DocElem.par "No optimization suggestions were generated." false false false]
    else
      [DocElem.table (table_headers :: table_data)
        (shading_flags (1 + table_data.length)) true true]
  pure ([DocElem.heading 0 "SQL Stored Procedure Analysis Report" true,
         .heading 1 "Stored Procedure Name:" false,
         .par a.procedure_name true false false,
         .heading 1 "Complexity:" false,
         .par a.complexity false false false,
         .heading 1 "Scope:" false,
         .par a.scope false false false,
         .heading 1 "Optimization Steps:" false]
        ++ steps
        ++ [DocElem.heading 1 "Summary:" false]
        ++ tl)

/-! ## The Markdown report (lines 623-631 and 689-722) -/

/-- The `report_md` literal header (lines 689-700). -/
def md_header (a : AnalysisRecord) : String :=
  "# SQL Stored Procedure Analysis Report\n\n## Procedure Name: " ++
  a.procedure_name ++ "\n\n## Complexity:\n" ++ a.complexity ++
  "\n\n## Scope:\n" ++ a.scope ++ "\n\n## Optimization Steps:\n"

/-- One step's Markdown block (lines 702-719, direct indexing). -/
def md_step (i : Nat) (o : OptStep) : Option String := do
  let ty ← o.type
  let ex ← o.existing_logic
  let op ← o.optimized_logic
  let expl ← o.explanation
  pure ("\n### Step " ++ toString i ++ ": " ++ ty ++
        "\n\n**Existing Logic:**\n```sql\n" ++ ex ++
        "\n```\n\n**Optimized Logic:**\n```sql\n" ++ op ++
        "\n```\n\n*" ++ expl ++ "*\n\n---\n")

/-- The `for i, opt in enumerate(..., 1)` accumulation into `report_md`. -/
def md_steps : Nat → List OptStep → Option String
  | _, [] => some ""
  | i, o :: os => do
    let s ← md_step i o
    let rest ← md_steps (i + 1) os
    pure (s ++ rest)

/-- Lines 623-631: one `summary_data` entry (direct indexing on all five
fields). -/
def summary_row (o : OptStep) : Option (List String) := do
  let ty ← o.type
  let ln ← o.line_number
  let ex ← o.existing_logic
  let op ← o.optimized_logic
  let expl ← o.explanation
  pure [ty, ln, ex, op, expl]

/-- The `for opt in analysis["optimizations"]` accumulation of
`summary_data` (lines 623-631). -/
def summary_rows : List OptStep → Option (List (List String))
  | [] => some []
  | o :: os => do
    let r ← summary_row o
    let rest ← summary_rows os
    pure (r :: rest)

/-- Modelled from the spec: the summary table text emitted through the
external dataframe library (`summary_df.to_markdown(index=False)`, line 722),
which is not part of this repository — "standard Markdown table syntax with
the same five columns" (§4.5): a header row, a separator row, then one row
per step.  Cell padding is presentational and not modelled.  `md_cells` joins
one row's cells with the column separator. -/
def md_cells : List String → String
  | [] => ""
  | [c] => c
  | c :: cs => c ++ " | " ++ md_cells cs

/-- One pipe-delimited table line. -/
def md_row (r : List String) : String := "| " ++ md_cells r ++ " |"

/-- The data lines, one per row. -/
def md_rows : List (List String) → String
  | [] => ""
  | r :: rs => "\n" ++ md_row r ++ md_rows rs

/-- Header line, separator line, then the data lines. -/
def md_table (rows : List (List String)) : String :=
  md_row table_headers ++ "\n|---|---|---|---|---|" ++ md_rows rows

/-- Lines 689-722: the full Markdown report. -/
def report_md (a : AnalysisRecord) : Option String := do
  let rows ← summary_rows a.optimizations
  let steps ← md_steps 1 a.optimizations
  pure (md_header a ++ steps ++ "\n## Summary Table:\n\n" ++ md_table rows)

/-! ## The normalizer's corrective passes, as the spec describes them (§4.3)

The source's normalizer is only lines 346-350 (strip + fence removal,
`clean_response` above); it contains no escaping pass.  The two passes below
are written from the spec's words, to compare the spec's described normalizer
with the source's. -/

/-- Modelled from the spec (§4.3): "any occurrence of a literal two-character
escape token (backslash+`n` or backslash+`t`) not itself preceded by an
escaping backslash is left as a literal escape (normalized to a single
unambiguous form)": the token's backslash is doubled so a parser reads a
literal escape, and a token already preceded by a backslash is kept. -/
def spec_fix_escape_tokens : List Char → List Char
  | '\\' :: '\\' :: rest => '\\' :: '\\' :: spec_fix_escape_tokens rest
  | '\\' :: 'n' :: rest => '\\' :: '\\' :: 'n' :: spec_fix_escape_tokens rest
  | '\\' :: 't' :: rest => '\\' :: '\\' :: 't' :: spec_fix_escape_tokens rest
  | c :: rest => c :: spec_fix_escape_tokens rest
  | [] => []

/-- Modelled from the spec (§4.3): the line scan "tracking whether the cursor
is inside a string literal (toggled on each unescaped double-quote); any
double-quote encountered while inside a string that is not already escaped is
escaped in place".  Following the spec's words each unescaped quote toggles
the state, and one met while inside a string is additionally escaped. -/
def spec_escape_quotes_line : Bool → List Char → List Char
  | _, [] => []
  | inStr, '\\' :: c :: rest => '\\' :: c :: spec_escape_quotes_line inStr rest
  | inStr, '"' :: rest =>
    if inStr then '\\' :: '"' :: spec_escape_quotes_line false rest
    else '"' :: spec_escape_quotes_line true rest
  | inStr, c :: rest => c :: spec_escape_quotes_line inStr rest

/-- Modelled from the spec (§4.3): the normalizer the spec describes — strip
and fence removal (as the source does), then the two corrective passes. -/
def spec_normalize (raw : String) : String :=
  let t := spec_fix_escape_tokens (clean_response_list raw.toList)
  join_nl ((py_split_nl t).map (fun l => String.mk (spec_escape_quotes_line false l)))

/-! ## Observations and concrete fixtures used by the theorems -/

/-- Is a document element a step heading (level-2 heading)? -/
def isH2 : DocElem → Bool
  | .heading 2 _ _ => true
  | _ => false

/-- Is a document element a table? -/
def isTable : DocElem → Bool
  | .table _ _ _ _ => true
  | _ => false

/-- The step headings the renderer emits, in input order, starting at `i`. -/
def step_titles : Nat → List OptStep → List DocElem
  | _, [] => []
  | i, o :: os =>
    DocElem.heading 2 ("Step " ++ toString i ++ ": " ++ o.type.getD "") false ::
      step_titles (i + 1) os

/-- The four step fields the Word renderer indexes directly. -/
def step_fields_present (o : OptStep) : Prop :=
  o.type.isSome ∧ o.existing_logic.isSome ∧ o.optimized_logic.isSome ∧
    o.explanation.isSome

instance (o : OptStep) : Decidable (step_fields_present o) := by
  unfold step_fields_present; infer_instance

/-- All five step fields (the Markdown path also indexes `line_number`). -/
def step_all_present (o : OptStep) : Prop :=
  o.type.isSome ∧ o.line_number.isSome ∧ o.existing_logic.isSome ∧
    o.optimized_logic.isSome ∧ o.explanation.isSome

instance (o : OptStep) : Decidable (step_all_present o) := by
  unfold step_all_present; infer_instance

/-- The backtick character (96), written by code point. -/
def backtick : Char := Char.ofNat 96

/-- Number of backticks in a string — the observation that counts fenced-code
markers, since each ` ``` ` marker is three backticks and each ` ```sql `
opener is three backticks plus a tag. -/
def btCount (s : String) : Nat := s.toList.count backtick

/-- A string free of backticks (the benign-content side condition under which
fence counting is meaningful). -/
def no_backtick (s : String) : Prop := backtick ∉ s.toList

instance (s : String) : Decidable (no_backtick s) := by
  unfold no_backtick; infer_instance

/-- All five fields of a step are backtick-free (using the same `.get`
defaults the table builder uses for absent fields). -/
def step_no_backtick (o : OptStep) : Prop :=
  no_backtick (o.type.getD "") ∧ no_backtick (o.line_number.getD "") ∧
  no_backtick (o.existing_logic.getD "") ∧ no_backtick (o.optimized_logic.getD "") ∧
  no_backtick (o.explanation.getD "")

instance (o : OptStep) : Decidable (step_no_backtick o) := by
  unfold step_no_backtick; infer_instance

/-- A complete five-field record text (C3's "valid record"). -/
def c3_valid_text : String :=
  "\x7b\"procedure_name\":\"p\",\"complexity\":\"c\",\"scope\":\"s\",\"optimizations\":[],\"summary\":\x7b\"original_performance_issues\":\"a\",\"optimization_impact\":\"b\",\"implementation_difficulty\":\"d\"\x7d\x7d"

/-- `c3_valid_text` with the closing quote of the final string value removed
(character 171), the one-unescaped-quote corruption that produces a real
"Unterminated string" decode error. -/
def c3_broken_text : String :=
  "\x7b\"procedure_name\":\"p\",\"complexity\":\"c\",\"scope\":\"s\",\"optimizations\":[],\"summary\":\x7b\"original_performance_issues\":\"a\",\"optimization_impact\":\"b\",\"implementation_difficulty\":\"d\x7d\x7d"

/-- The record `c3_valid_text` parses to. -/
def c3_valid_record : Json :=
  .obj [("procedure_name", .str "p"), ("complexity", .str "c"),
        ("scope", .str "s"), ("optimizations", .arr []),
        ("summary", .obj
          [("original_performance_issues", .str "a"),
           ("optimization_impact", .str "b"),
           ("implementation_difficulty", .str "d")])]

/-- A step whose `explanation` is absent (every other field present). -/
def c9_missing_expl_step : OptStep :=
  { type := some "Cursor removal", line_number := some "10-25",
    existing_logic := some "DECLARE c CURSOR", optimized_logic := some "UPDATE o",
    explanation := none }

/-- A record containing `c9_missing_expl_step`. -/
def c9_missing_expl_record : AnalysisRecord :=
  { procedure_name := "usp_GetCustomerOrders", complexity := "Medium",
    scope := "Processes customer orders.",
    optimizations := [c9_missing_expl_step],
    summary := ⟨none, none, none⟩ }

/-- A step whose `line_number` is absent (the fields the renderer indexes
directly are all present). -/
def c9_missing_ln_step : OptStep :=
  { type := some "Set-based update", line_number := none,
    existing_logic := some "WHILE @@FETCH_STATUS = 0",
    optimized_logic := some "UPDATE Orders SET Status = 1",
    explanation := some "One statement replaces the loop." }

/-- A record containing `c9_missing_ln_step`. -/
def c9_missing_ln_record : AnalysisRecord :=
  { procedure_name := "usp_GetCustomerOrders", complexity := "Low",
    scope := "Updates order status.",
    optimizations := [c9_missing_ln_step],
    summary := ⟨some "loops", some "less io", some "easy"⟩ }

/-- A complete two-step record (renderer witnesses). -/
def two_step_record : AnalysisRecord :=
  { procedure_name := "usp_GetCustomerOrders", complexity := "Medium",
    scope := "Reads orders and updates their status.",
    optimizations :=
      [{ type := some "Replace Cursor with Set-Based Update",
         line_number := some "10-25",
         existing_logic := some "FETCH NEXT FROM order_cursor",
         optimized_logic := some "UPDATE Orders SET Status = 2",
         explanation := some "Avoids row-by-row processing." },
       { type := some "Explicit column list", line_number := some "40-41",
         existing_logic := some "SELECT * FROM Orders",
         optimized_logic := some "SELECT OrderId, OrderDate FROM Orders",
         explanation := some "Fetches only the needed columns." }],
    summary := ⟨some "cursor loop", some "large", some "medium"⟩ }

/-- A complete record with no optimization steps (the N = 0 renderer case). -/
def zero_step_record : AnalysisRecord :=
  { procedure_name := "usp_Noop", complexity := "Low", scope := "Does nothing.",
    optimizations := [], summary := ⟨none, none, none⟩ }

/-! ## Theorems -/

/-- A successful field match captures the nonempty `[^"]+` group. -/
theorem match_field_at_ne_nil : ∀ (key cs r : List Char),
    match_field_at key cs = some r → r ≠ [] := by
  intro key cs r h
  unfold match_field_at at h
  repeat' split at h
  all_goals simp_all
  all_goals rintro rfl
  all_goals simp_all

/-- `re.search` only returns the nonempty capture. -/
theorem regex_field_search_ne_nil : ∀ (key cs r : List Char),
    regex_field_search key cs = some r → r ≠ [] := by
  intro key cs
  induction cs with
  | nil => intro r h; exact absurd h (by simp [regex_field_search])
  | cons c t ih =>
    intro r h
    unfold regex_field_search at h
    split at h
    · cases h
      exact match_field_at_ne_nil key (c :: t) _ (by assumption)
    · exact ih r h

/-- A salvaged field value is never the empty string. -/
theorem extract_field_ne_empty (key s : String) (r : String)
    (h : extract_field key s = some r) : r ≠ "" := by
  unfold extract_field at h
  cases hf : regex_field_search key.toList s.toList with
  | none => rw [hf] at h; cases h
  | some l =>
    rw [hf] at h
    cases h
    have := regex_field_search_ne_nil key.toList s.toList l hf
    intro hc
    exact this (congrArg String.data hc)

/-- The only error message containing "Unterminated string" is the
unterminated-string error's. -/
theorem substr_in_message_iff (k : ErrKind) :
    substr_in "Unterminated string".toList k.message.toList = true ↔
      k = ErrKind.unterminatedString := by
  cases k <;> simp <;> decide

/-- C1: once the model has replied, the parse/repair cascade never returns a
hard failure: every path of `analyze_stored_procedure` after the reply yields
a record (the strict parse, one of the repair stages, or the `minimal_json`
terminal fallback). -/
theorem c1_pipeline_never_hard_fails (raw : String) :
    (analyze_model_reply raw).isSome := by
  unfold analyze_model_reply repair_pipeline parse_error_line
  cases hp : json_loads (clean_response raw) with
  | ok v => simp
  | error e =>
    cases h1 : stage_s1 (clean_response raw) e (lineOf (clean_response raw) e.pos) with
    | some v => simp [h1]
    | none =>
      cases h3 : stage_s3 (clean_response raw) with
      | some v => simp [h1, h3]
      | none => simp [h1, h3]

/-- C2 counterexample: `"{}"` parses as structured data, lacks all five
required fields, and stage S0 still returns it — no later stage runs and no
validation happens. -/
theorem c2_counterexample :
    repair_pipeline "\x7b\x7d" = some (Json.obj []) ∧
    spec_hasRequiredFields (Json.obj []) = false :=
  ⟨rfl, rfl⟩

/-- C2 (amended): stage S0 succeeds exactly when the normalized text parses as
structured data; it performs no required-field validation, so whatever value
parses — fields present or not — is returned without invoking any later
stage. -/
theorem c2_amended_s0_no_validation (s : String) (v : Json)
    (h : json_loads s = .ok v) : repair_pipeline s = some v := by
  unfold repair_pipeline
  rw [h]

theorem c2_amended_s0_no_validation_witness :
    repair_pipeline "[]" = some (Json.arr []) :=
  c2_amended_s0_no_validation "[]" (Json.arr []) rfl

/-- Length is preserved by the S1 line fix. -/
theorem fix_lines_length : ∀ (ls : List String) (L : Nat),
    (fix_unterminated_lines ls L).length = ls.length := by
  intro ls
  induction ls with
  | nil => intro L; rfl
  | cons l t ih => intro L; simp [fix_unterminated_lines, ih]

/-- Lines other than the reported error line are passed through unchanged. -/
theorem fix_lines_get_ne : ∀ (ls : List String) (L i : Nat), i + 1 ≠ L →
    (fix_unterminated_lines ls L)[i]? = ls[i]? := by
  intro ls
  induction ls with
  | nil => intro L i _; rfl
  | cons l t ih =>
    intro L i h
    cases i with
    | zero =>
      have hL : L ≠ 1 := fun hL => h (by omega)
      simp [fix_unterminated_lines, hL]
    | succ j =>
      simp only [fix_unterminated_lines, List.getElem?_cons_succ]
      exact ih (L - 1) j (by omega)

/-- The reported error line gets one quote appended exactly when its quote
count is odd. -/
theorem fix_lines_get_eq : ∀ (ls : List String) (L i : Nat), i + 1 = L →
    (fix_unterminated_lines ls L)[i]? =
      ls[i]?.map (fun l => if l.toList.count '"' % 2 = 1 then l ++ "\"" else l) := by
  intro ls
  induction ls with
  | nil => intro L i _; rfl
  | cons l t ih =>
    intro L i h
    cases i with
    | zero =>
      subst h
      by_cases hq : l.toList.count '"' % 2 = 1
      · simp [fix_unterminated_lines, hq]
      · simp [fix_unterminated_lines, hq]
    | succ j =>
      simp only [fix_unterminated_lines, List.getElem?_cons_succ]
      exact ih (L - 1) j (by omega)

/-- C10: the S1 repair modifies at most the single line whose 1-based index is
the reported error line, appending one quote to it exactly when its quote
count is odd; every other line of the split text is re-joined unchanged. -/
theorem c10_s1_frame (ls : List String) (L : Nat) :
    (fix_unterminated_lines ls L).length = ls.length ∧
    (∀ i, i + 1 ≠ L → (fix_unterminated_lines ls L)[i]? = ls[i]?) ∧
    (∀ i, i + 1 = L →
      (fix_unterminated_lines ls L)[i]? =
        ls[i]?.map (fun l => if l.toList.count '"' % 2 = 1 then l ++ "\"" else l)) ∧
    (∀ s : String, fix_unterminated s L =
      join_nl (fix_unterminated_lines ((py_split_nl s.toList).map String.mk) L)) :=
  ⟨fix_lines_length ls L,
   fun i h => fix_lines_get_ne ls L i h,
   fun i h => fix_lines_get_eq ls L i h,
   fun _ => rfl⟩

theorem c10_s1_frame_witness :
    (fix_unterminated_lines ["\x7b", "\"x", "\x7d"] 2)[0]? = some "\x7b" ∧
    (fix_unterminated_lines ["\x7b", "\"x", "\x7d"] 2)[1]? = some "\"x\"" ∧
    (fix_unterminated_lines ["\x7b", "\"x", "\x7d"] 2)[2]? = some "\x7d" := by
  have h := c10_s1_frame ["\x7b", "\"x", "\x7d"] 2
  refine ⟨(h.2.1 0 (by omega)).trans rfl, (h.2.2.1 1 rfl).trans (by decide), (h.2.1 2 (by omega)).trans rfl⟩

set_option maxRecDepth 16384 in
/-- C3 counterexample: `c3_broken_text` is `c3_valid_text` with exactly one
quote (character 171) removed and decodes with a real "Unterminated string"
error on line 1, yet the repair does not recover the original record: S1
appends a quote at the end of the line (swallowing the closing braces into
the string), the re-parse and brace extraction fail, and the pipeline ends in
the S5 fallback, whose record differs from the original (one placeholder
optimization instead of none). -/
theorem c3_counterexample :
    json_loads c3_valid_text = .ok c3_valid_record ∧
    c3_broken_text.toList = c3_valid_text.toList.eraseIdx 171 ∧
    c3_valid_text.toList[171]? = some '"' ∧
    json_loads c3_broken_text = .error ⟨.unterminatedString, 169⟩ ∧
    lineOf c3_broken_text 169 = 1 ∧
    repair_pipeline c3_broken_text = some (minimal_json c3_broken_text) ∧
    opt_count (minimal_json c3_broken_text) = 1 ∧
    opt_count c3_valid_record = 0 ∧
    minimal_json c3_broken_text ≠ c3_valid_record := by
  refine ⟨rfl, by decide, by decide, rfl, by decide, rfl, by decide, by decide, ?_⟩
  intro h
  exact absurd (congrArg opt_count h) (by decide)

/-- C3 (amended): on an "Unterminated string" error the S1 stage counts the
quote parity of the entire reported line (not up to the error column) and
appends one closing quote at the end of that line (not at the column); when
the repaired text re-parses, the pipeline returns that re-parsed record —
which is not in general the original record (see the counterexample). -/
theorem c3_amended_s1_whole_line_append (s : String) (e : PErr) (v : Json)
    (he : json_loads s = .error e) (hk : e.kind = .unterminatedString)
    (hfix : json_loads (fix_unterminated s (lineOf s e.pos)) = .ok v) :
    repair_pipeline s = some v := by
  unfold repair_pipeline parse_error_line
  rw [he]
  have hs1 : stage_s1 s e (lineOf s e.pos) = some v := by
    unfold stage_s1
    rw [if_pos ((substr_in_message_iff e.kind).mpr hk), hfix]
  simp [hs1]

set_option maxRecDepth 16384 in
theorem c3_amended_s1_whole_line_append_witness :
    repair_pipeline "\"abc" = some (Json.str "abc") :=
  c3_amended_s1_whole_line_append "\"abc" ⟨.unterminatedString, 0⟩ (Json.str "abc")
    rfl rfl rfl

/-- C4: when the strict parse fails, the unterminated-line repair (if
applicable) fails, and the brace-extraction stage fails, the pipeline still
returns a record — the S5 fallback, whose `optimizations` is exactly one
placeholder step, whose `scope` is non-empty, whose `procedure_name`,
`complexity` and `scope` are the regex-extracted values whenever the regexes
match, and whose `summary` is the synthesized placeholder. -/
theorem c4_terminal_fallback (s : String) (e : PErr)
    (he : json_loads s = .error e)
    (hfix : e.kind = ErrKind.unterminatedString →
      ∀ v, json_loads (fix_unterminated s (lineOf s e.pos)) ≠ .ok v)
    (hbrace : ∀ t, brace_extract s = some t → ∀ v, json_loads t ≠ .ok v) :
    repair_pipeline s = some (minimal_json s) ∧
    jsonGet (minimal_json s) "optimizations" = some (Json.arr
      [Json.obj
        [("type", .str "General Optimization"),
         ("line_number", .str "N/A"),
         ("existing_logic", .str "-- Original procedure code (could not be parsed)"),
         ("optimized_logic", .str "-- See recommendations in the AI analysis text"),
         ("explanation", .str "The JSON response from the AI service could not be fully parsed. Please review the raw response in the debug section.")]]) ∧
    (∃ sc, jsonGet (minimal_json s) "scope" = some (.str sc) ∧ sc ≠ "") ∧
    (∀ p, extract_field "procedure_name" s = some p →
      jsonGet (minimal_json s) "procedure_name" = some (.str p)) ∧
    (∀ c, extract_field "complexity" s = some c →
      jsonGet (minimal_json s) "complexity" = some (.str c)) ∧
    (∀ sc, extract_field "scope" s = some sc →
      jsonGet (minimal_json s) "scope" = some (.str sc)) ∧
    jsonGet (minimal_json s) "summary" = some (Json.obj
      [("original_performance_issues", .str "The JSON response could not be fully parsed."),
       ("optimization_impact", .str "See debug output for details."),
       ("implementation_difficulty", .str "N/A")]) := by
  have hs1 : stage_s1 s e (lineOf s e.pos) = none := by
    unfold stage_s1
    by_cases hk : e.kind = ErrKind.unterminatedString
    · rw [if_pos ((substr_in_message_iff e.kind).mpr hk)]
      cases hf : json_loads (fix_unterminated s (lineOf s e.pos)) with
      | ok v => exact absurd hf (hfix hk v)
      | error _ => rfl
    · rw [if_neg (fun hb => hk ((substr_in_message_iff e.kind).mp hb))]
  have hs3 : stage_s3 s = none := by
    unfold stage_s3
    cases hb : brace_extract s with
    | none => rfl
    | some t =>
      change (match json_loads t with
        | Except.ok v => some v
        | Except.error _ => none) = none
      cases ht : json_loads t with
      | ok v => exact absurd ht (hbrace t hb v)
      | error _ => rfl
  have hpipe : repair_pipeline s = some (minimal_json s) := by
    unfold repair_pipeline parse_error_line
    rw [he]
    simp [hs1, hs3]
  refine ⟨hpipe, by simp [minimal_json, jsonGet], ?_, ?_, ?_, ?_, by simp [minimal_json, jsonGet]⟩
  · cases hsc : extract_field "scope" s with
    | none =>
      refine ⟨"This stored procedure's scope could not be determined due to parsing issues.",
        by simp [minimal_json, jsonGet, hsc], by decide⟩
    | some r =>
      exact ⟨r, by simp [minimal_json, jsonGet, hsc], extract_field_ne_empty _ _ _ hsc⟩
  · intro p hp; simp [minimal_json, jsonGet, hp]
  · intro c hc; simp [minimal_json, jsonGet, hc]
  · intro sc hsc; simp [minimal_json, jsonGet, hsc]

theorem c4_terminal_fallback_witness :
    repair_pipeline "hello" = some (minimal_json "hello") ∧
    jsonGet (minimal_json "hello") "scope" = some (.str
      "This stored procedure's scope could not be determined due to parsing issues.") ∧
    opt_count (minimal_json "hello") = 1 := by
  have h := c4_terminal_fallback "hello" ⟨.expectingValue, 0⟩ rfl
    (fun hk => absurd hk (by decide))
    (fun t ht => by rw [show brace_extract "hello" = none from rfl] at ht; cases ht)
  exact ⟨h.1, rfl, by decide⟩

/-- C5 counterexample: on a raw text containing an unescaped double-quote
inside a string value (and no whitespace or fences), the source's normalizer
returns the text character-for-character unchanged — no quote is escaped in
place and no escape token is rewritten (the output contains no backslash at
all) — while the normalizer the spec describes rewrites it. -/
theorem c5_counterexample :
    clean_response "\x7b\"a\": \"x\"y\"\x7d" = "\x7b\"a\": \"x\"y\"\x7d" ∧
    "\x7b\"a\": \"x\"y\"\x7d".toList.count '\\' = 0 ∧
    spec_normalize "\x7b\"a\": \"x\"y\"\x7d" ≠ "\x7b\"a\": \"x\"y\"\x7d" := by
  refine ⟨rfl, rfl, by decide⟩

/-- `py_strip` only removes characters from the two ends. -/
theorem py_strip_substring (cs : List Char) : py_strip cs <:+: cs := by
  unfold py_strip
  have h1 : cs.dropWhile isPySpace <:+ cs := List.dropWhile_suffix _
  have h2 : (cs.dropWhile isPySpace).reverse.dropWhile isPySpace <:+
      (cs.dropWhile isPySpace).reverse := List.dropWhile_suffix _
  have h3 : ((cs.dropWhile isPySpace).reverse.dropWhile isPySpace).reverse <+:
      cs.dropWhile isPySpace := by
    have := List.reverse_prefix.mpr h2
    simpa using this
  exact h3.isInfix.trans h1.isInfix

/-- `clean_response_list` only removes characters from the two ends. -/
theorem clean_response_list_substring (cs : List Char) : clean_response_list cs <:+: cs := by
  unfold clean_response_list
  have hps : py_strip cs <:+: cs := py_strip_substring cs
  have h2 : (if fence_json.isPrefixOf (py_strip cs) then (py_strip cs).drop 7
      else py_strip cs) <:+: py_strip cs := by
    split
    · exact (List.drop_suffix _ _).isInfix
    · exact List.infix_refl _
  have h3 : ∀ t2 : List Char,
      (if fence_close.isSuffixOf t2 then t2.take (t2.length - 3) else t2) <:+: t2 := by
    intro t2
    split
    · exact (List.take_prefix _ _).isInfix
    · exact List.infix_refl _
  exact ((h3 _).trans h2).trans hps

/-- C5 (amended): the source's ResponseNormalizer only strips leading/trailing
whitespace and the code-fence markers; it applies no corrective escaping pass,
and its output is a contiguous, unmodified substring of the raw reply. -/
theorem c5_amended_normalizer_only_strips (raw : String) :
    (clean_response raw).toList <:+: raw.toList ∧
    clean_response raw = String.mk (clean_response_list raw.toList) :=
  ⟨clean_response_list_substring raw.toList, rfl⟩

/-- C6: with `max_retries = 3` and base delay 5, a transport that fails on
every call is invoked exactly 4 times (never a 5th), the loop then returns the
terminal failure carrying the last error's message, and the requested backoff
delays are 5, 10, 20 — so at least `base + 2*base = 15` seconds of cumulative
delay are requested before the third attempt. -/
theorem c6_retry_exhaustion (err : Nat → String) :
    (generate_response (fun n => .error (err n))).attempts = 4 ∧
    (generate_response (fun n => .error (err n))).result = none ∧
    (generate_response (fun n => .error (err n))).last_error = some (err 3) ∧
    (generate_response (fun n => .error (err n))).sleeps = [5, 10, 20] ∧
    5 + 2 * 5 ≤ ((generate_response (fun n => .error (err n))).sleeps.take 2).sum := by
  have h : generate_response (fun n => .error (err n)) =
      ⟨none, 4, [5, 10, 20], some (err 3)⟩ := by
    unfold generate_response
    rw [generate_response_loop]
    norm_num
    rw [generate_response_loop]
    norm_num
    rw [generate_response_loop]
    norm_num
    rw [generate_response_loop]
    norm_num
  rw [h]
  refine ⟨rfl, rfl, rfl, rfl, by norm_num⟩

/-- With the directly-indexed fields present, the step-section loop succeeds
and contributes exactly one level-2 heading per step (the step titles in
input order) and no table. -/
theorem step_sections_ok : ∀ (os : List OptStep) (i : Nat),
    (∀ o ∈ os, step_fields_present o) →
    ∃ ds, step_sections i os = some ds ∧
      ds.filter isH2 = step_titles i os ∧
      ds.filter isTable = [] := by
  intro os
  induction os with
  | nil => intro i _; exact ⟨[], rfl, rfl, rfl⟩
  | cons o t ih =>
    intro i h
    obtain ⟨h1, h2, h3, h4⟩ := h o (List.mem_cons_self o t)
    obtain ⟨ty, hty⟩ := Option.isSome_iff_exists.mp h1
    obtain ⟨ex, hex⟩ := Option.isSome_iff_exists.mp h2
    obtain ⟨op, hop⟩ := Option.isSome_iff_exists.mp h3
    obtain ⟨expl, hexp⟩ := Option.isSome_iff_exists.mp h4
    obtain ⟨ds, hds, hh2, htb⟩ := ih (i + 1) (fun o' ho' => h o' (List.mem_cons_of_mem o ho'))
    have hsec : step_section i o =
        some [DocElem.heading 2 ("Step " ++ toString i ++ ": " ++ ty) false,
              .heading 3 "Existing Logic:" false,
              .par ex false false true,
              .heading 3 "Optimized Logic:" false,
              .par op false false true,
              .par expl false true false,
              .par (String.mk (List.replicate 40 '_')) false false false] := by
      simp [step_section, hty, hex, hop, hexp]
    refine ⟨[DocElem.heading 2 ("Step " ++ toString i ++ ": " ++ ty) false,
              .heading 3 "Existing Logic:" false,
              .par ex false false true,
              .heading 3 "Optimized Logic:" false,
              .par op false false true,
              .par expl false true false,
              .par (String.mk (List.replicate 40 '_')) false false false] ++ ds,
            ?_, ?_, ?_⟩
    · simp [step_sections, hsec, hds]
    · simp [List.filter_append, hh2, step_titles, isH2, hty]
    · simp [List.filter_append, htb, isTable]

/-- Step titles are one per step. -/
theorem step_titles_length : ∀ (os : List OptStep) (i : Nat),
    (step_titles i os).length = os.length := by
  intro os
  induction os with
  | nil => intro i; rfl
  | cons o t ih => intro i; simp [step_titles, ih]

/-- A list ending in an explicit two-element tail has the tail's second
element as its last element. -/
theorem list_getLast?_append_pair {α : Type _} (l₁ l₂ : List α) (y z : α) :
    (l₁ ++ l₂ ++ [y, z]).getLast? = some z := by
  rw [show l₁ ++ l₂ ++ [y, z] = (l₁ ++ l₂ ++ [y]) ++ [z] by simp]
  exact List.getLast?_concat _

/-- C7: for a record with N steps (required fields present) the Word renderer
emits exactly N step sections (level-2 step headings, in input order); when
N > 0 the document ends in exactly one table of N+1 rows — the bold centered
header row and one row per step with the five columns in the fixed order —
whose rows are shaded exactly at the even indices (alternating shading
starting from the second data row); when N = 0 it ends in the single
"no suggestions" paragraph and contains no table. -/
theorem c7_word_renderer_structure (a : AnalysisRecord)
    (h : ∀ o ∈ a.optimizations, step_fields_present o) :
    ∃ d, create_word_document a = some d ∧
      d.filter isH2 = step_titles 1 a.optimizations ∧
      (d.filter isH2).length = a.optimizations.length ∧
      (a.optimizations = [] →
        d.filter isTable = [] ∧
        d.getLast? = some
          (DocElem.par "No optimization suggestions were generated." false false false)) ∧
      (a.optimizations ≠ [] →
        d.filter isTable =
          [DocElem.table (table_headers :: a.optimizations.map table_row)
            (shading_flags (1 + a.optimizations.length)) true true] ∧
        d.getLast? = some
          (DocElem.table (table_headers :: a.optimizations.map table_row)
            (shading_flags (1 + a.optimizations.length)) true true) ∧
        (table_headers :: a.optimizations.map table_row).length =
          a.optimizations.length + 1 ∧
        (∀ o ∈ a.optimizations, table_row o =
          [o.type.getD "N/A", o.line_number.getD "N/A", o.existing_logic.getD "",
           o.optimized_logic.getD "", o.explanation.getD ""]) ∧
        (∀ i, i < 1 + a.optimizations.length →
          (shading_flags (1 + a.optimizations.length))[i]? =
            some (decide (0 < i) && decide (i % 2 = 0)))) := by
  obtain ⟨ds, hds, hh2, htb⟩ := step_sections_ok a.optimizations 1 h
  by_cases hopt : a.optimizations = []
  · rw [hopt] at hds hh2
    have h' : (some ([] : List DocElem)) = some ds := hds
    obtain rfl : ds = [] := (Option.some.inj h').symm
    simp only [hopt]
    refine ⟨[DocElem.heading 0 "SQL Stored Procedure Analysis Report" true,
             .heading 1 "Stored Procedure Name:" false,
             .par a.procedure_name true false false,
             .heading 1 "Complexity:" false,
             .par a.complexity false false false,
             .heading 1 "Scope:" false,
             .par a.scope false false false,
             .heading 1 "Optimization Steps:" false,
             .heading 1 "Summary:" false,
             .par "No optimization suggestions were generated." false false false],
           ?_, rfl, rfl, fun _ => ⟨rfl, rfl⟩, fun hne => absurd rfl hne⟩
    simp [create_word_document, hopt, step_sections]
  · refine ⟨[DocElem.heading 0 "SQL Stored Procedure Analysis Report" true,
             .heading 1 "Stored Procedure Name:" false,
             .par a.procedure_name true false false,
             .heading 1 "Complexity:" false,
             .par a.complexity false false false,
             .heading 1 "Scope:" false,
             .par a.scope false false false,
             .heading 1 "Optimization Steps:" false]
            ++ ds
            ++ [DocElem.heading 1 "Summary:" false,
                DocElem.table (table_headers :: a.optimizations.map table_row)
                  (shading_flags (1 + a.optimizations.length)) true true],
           ?_, ?_, ?_, ?_, ?_⟩
    · have hne : (a.optimizations.map table_row).isEmpty = false := by
        simp [List.isEmpty_iff, hopt]
      simp [create_word_document, hds, hne]
    · simp [List.filter_append, hh2, isH2, isTable]
    · simp [List.filter_append, hh2, isH2, isTable, step_titles_length]
    · intro he; exact absurd he hopt
    · intro _
      refine ⟨by simp [List.filter_append, htb, isH2, isTable], ?_, by simp, fun o _ => rfl, ?_⟩
      · exact list_getLast?_append_pair _ _ _ _
      · intro i hi
        simp [shading_flags, List.getElem?_map, List.getElem?_range, hi]

theorem c7_word_renderer_structure_witness :
    (create_word_document two_step_record).isSome ∧
    (((create_word_document two_step_record).getD []).filter isH2).length = 2 ∧
    (((create_word_document two_step_record).getD []).filter isTable ≠ []) := by
  obtain ⟨d, hd, hh2, hlen, _, hne⟩ :=
    c7_word_renderer_structure two_step_record (by decide)
  obtain ⟨htb, _, _, _, _⟩ := hne (by decide)
  refine ⟨by rw [hd]; rfl, ?_, ?_⟩
  · rw [hd]; simpa using hlen
  · rw [hd]; simp [htb]

/-- C9 counterexample: a step missing only its optional `explanation` makes
both renderers fail outright (the step sections and the Markdown summary rows
index the field directly), instead of substituting an "N/A" placeholder. -/
theorem c9_counterexample :
    create_word_document c9_missing_expl_record = none ∧
    report_md c9_missing_expl_record = none :=
  ⟨rfl, rfl⟩

/-- A step with a missing `explanation` fails the whole step-section loop. -/
theorem step_sections_missing_expl : ∀ (os : List OptStep) (i : Nat) (o : OptStep),
    o ∈ os → o.explanation = none → step_sections i os = none := by
  intro os
  induction os with
  | nil => intro i o ho; cases ho
  | cons p t ih =>
    intro i o hmem hexp
    rcases List.mem_cons.mp hmem with h | h
    · have hsec : step_section i p = none := by
        subst h
        cases o.type <;> cases o.existing_logic <;> cases o.optimized_logic <;>
          simp [step_section, hexp]
      simp [step_sections, hsec]
    · have ht := ih (i + 1) o h hexp
      cases hsec : step_section i p <;> simp [step_sections, hsec, ht]

/-- A step with a missing `explanation` fails the Markdown step loop. -/
theorem md_steps_missing_expl : ∀ (os : List OptStep) (i : Nat) (o : OptStep),
    o ∈ os → o.explanation = none → md_steps i os = none := by
  intro os
  induction os with
  | nil => intro i o ho; cases ho
  | cons p t ih =>
    intro i o hmem hexp
    rcases List.mem_cons.mp hmem with h | h
    · have hsec : md_step i p = none := by
        subst h
        cases o.type <;> cases o.existing_logic <;> cases o.optimized_logic <;>
          simp [md_step, hexp]
      simp [md_steps, hsec]
    · have ht := ih (i + 1) o h hexp
      cases hsec : md_step i p <;> simp [md_steps, hsec, ht]

/-- A step with a missing `explanation` fails the summary-row collection. -/
theorem summary_rows_missing_expl : ∀ (os : List OptStep) (o : OptStep),
    o ∈ os → o.explanation = none → summary_rows os = none := by
  intro os
  induction os with
  | nil => intro o ho; cases ho
  | cons p t ih =>
    intro o hmem hexp
    rcases List.mem_cons.mp hmem with h | h
    · have hrow : summary_row p = none := by
        subst h
        cases o.type <;> cases o.line_number <;> cases o.existing_logic <;>
          cases o.optimized_logic <;> simp [summary_row, hexp]
      simp [summary_rows, hrow]
    · have ht := ih o h hexp
      cases hrow : summary_row p <;> simp [summary_rows, hrow, ht]

/-- C9 (amended): placeholder substitution happens only in the Word summary
table, where `type` and `line_number` default to "N/A" and the three text
columns default to the empty string; every other field access in either
renderer is direct, so the Word renderer succeeds iff the four
directly-indexed fields are present, and a step with a missing `explanation`
makes both renderers fail rather than substitute a placeholder. -/
theorem c9_amended_direct_indexing :
    (∀ o : OptStep, table_row o =
      [o.type.getD "N/A", o.line_number.getD "N/A", o.existing_logic.getD "",
       o.optimized_logic.getD "", o.explanation.getD ""]) ∧
    (∀ a : AnalysisRecord, (∀ o ∈ a.optimizations, step_fields_present o) →
      (create_word_document a).isSome) ∧
    (∀ a : AnalysisRecord, ∀ o ∈ a.optimizations, o.explanation = none →
      create_word_document a = none ∧ report_md a = none) := by
  refine ⟨fun o => rfl, ?_, ?_⟩
  · intro a h
    obtain ⟨ds, hds, -, -⟩ := step_sections_ok a.optimizations 1 h
    simp [create_word_document, hds]
  · intro a o hmem hexp
    constructor
    · have h1 := step_sections_missing_expl a.optimizations 1 o hmem hexp
      simp [create_word_document, h1]
    · have h2 := summary_rows_missing_expl a.optimizations o hmem hexp
      simp [report_md, h2]

theorem c9_amended_direct_indexing_witness :
    (create_word_document c9_missing_ln_record).isSome ∧
    table_row c9_missing_ln_step =
      ["Set-based update", "N/A", "WHILE @@FETCH_STATUS = 0",
       "UPDATE Orders SET Status = 1", "One statement replaces the loop."] :=
  ⟨c9_amended_direct_indexing.2.1 c9_missing_ln_record (by decide), rfl⟩

/-- No digit character is a backtick. -/
theorem digitChar_lt_ne_backtick : ∀ m, m < 16 → Nat.digitChar m ≠ backtick := by
  decide

theorem digitChar_ne_backtick (m : Nat) : Nat.digitChar m ≠ backtick := by
  by_cases h : m < 16
  · exact digitChar_lt_ne_backtick m h
  · unfold Nat.digitChar
    have h0 : m ≠ 0 := by omega
    have h1 : m ≠ 1 := by omega
    have h2 : m ≠ 2 := by omega
    have h3 : m ≠ 3 := by omega
    have h4 : m ≠ 4 := by omega
    have h5 : m ≠ 5 := by omega
    have h6 : m ≠ 6 := by omega
    have h7 : m ≠ 7 := by omega
    have h8 : m ≠ 8 := by omega
    have h9 : m ≠ 9 := by omega
    have h10 : m ≠ 10 := by omega
    have h11 : m ≠ 11 := by omega
    have h12 : m ≠ 12 := by omega
    have h13 : m ≠ 13 := by omega
    have h14 : m ≠ 14 := by omega
    have h15 : m ≠ 15 := by omega
    simp [h0, h1, h2, h3, h4, h5, h6, h7, h8, h9, h10, h11, h12, h13, h14, h15]
    decide

/-- The digit accumulation never introduces a backtick. -/
theorem toDigitsCore_no_backtick : ∀ (fuel n : Nat) (ds : List Char),
    backtick ∉ ds → backtick ∉ Nat.toDigitsCore 10 fuel n ds := by
  intro fuel
  induction fuel with
  | zero => intro n ds h; exact h
  | succ f ih =>
    intro n ds h
    unfold Nat.toDigitsCore
    dsimp only
    have hcons : backtick ∉ (n % 10).digitChar :: ds := by
      intro hmem
      rcases List.mem_cons.mp hmem with h' | h'
      · exact digitChar_ne_backtick _ h'.symm
      · exact h h'
    by_cases hz : n / 10 = 0
    · rw [if_pos hz]; exact hcons
    · rw [if_neg hz]; exact ih _ _ hcons

/-- Decimal renderings of naturals contain no backtick. -/
theorem toString_nat_no_backtick (n : Nat) : btCount (toString n) = 0 :=
  List.count_eq_zero.mpr (toDigitsCore_no_backtick (n + 1) n [] (by simp))

/-- Backtick counting distributes over string concatenation. -/
theorem btCount_append (a b : String) : btCount (a ++ b) = btCount a + btCount b := by
  show (a ++ b).data.count backtick = a.data.count backtick + b.data.count backtick
  rw [String.data_append, List.count_append]

/-- A backtick-free string counts zero. -/
theorem btCount_of_no_backtick {s : String} (h : no_backtick s) : btCount s = 0 :=
  List.count_eq_zero.mpr h

/-- Each complete, backtick-free step contributes exactly 12 backticks to the
Markdown report: two ` ```sql ` openers and two ` ``` ` closers. -/
theorem md_steps_count : ∀ (os : List OptStep) (i : Nat),
    (∀ o ∈ os, step_fields_present o) → (∀ o ∈ os, step_no_backtick o) →
    ∃ t, md_steps i os = some t ∧ btCount t = 12 * os.length := by
  intro os
  induction os with
  | nil => intro i _ _; exact ⟨"", rfl, rfl⟩
  | cons o t ih =>
    intro i hp hb
    obtain ⟨h1, h2, h3, h4⟩ := hp o (List.mem_cons_self o t)
    obtain ⟨ty, hty⟩ := Option.isSome_iff_exists.mp h1
    obtain ⟨ex, hex⟩ := Option.isSome_iff_exists.mp h2
    obtain ⟨op, hop⟩ := Option.isSome_iff_exists.mp h3
    obtain ⟨expl, hexp⟩ := Option.isSome_iff_exists.mp h4
    obtain ⟨hbty, hbln, hbex, hbop, hbexp⟩ := hb o (List.mem_cons_self o t)
    obtain ⟨rest, hrest, hcnt⟩ := ih (i + 1)
      (fun o' ho' => hp o' (List.mem_cons_of_mem o ho'))
      (fun o' ho' => hb o' (List.mem_cons_of_mem o ho'))
    have hstep : md_step i o = some ("\n### Step " ++ toString i ++ ": " ++ ty ++
        "\n\n**Existing Logic:**\n```sql\n" ++ ex ++
        "\n```\n\n**Optimized Logic:**\n```sql\n" ++ op ++
        "\n```\n\n*" ++ expl ++ "*\n\n---\n") := by
      simp [md_step, hty, hex, hop, hexp]
    refine ⟨("\n### Step " ++ toString i ++ ": " ++ ty ++
        "\n\n**Existing Logic:**\n```sql\n" ++ ex ++
        "\n```\n\n**Optimized Logic:**\n```sql\n" ++ op ++
        "\n```\n\n*" ++ expl ++ "*\n\n---\n") ++ rest,
      by simp [md_steps, hstep, hrest], ?_⟩
    rw [hty] at hbty; rw [hex] at hbex; rw [hop] at hbop; rw [hexp] at hbexp
    simp only [Option.getD_some] at hbty hbex hbop hbexp
    simp only [btCount_append, hcnt, toString_nat_no_backtick,
      btCount_of_no_backtick hbty, btCount_of_no_backtick hbex,
      btCount_of_no_backtick hbop, btCount_of_no_backtick hbexp,
      show btCount "\n### Step " = 0 from by decide,
      show btCount ": " = 0 from by decide,
      show btCount "\n\n**Existing Logic:**\n```sql\n" = 3 from by decide,
      show btCount "\n```\n\n**Optimized Logic:**\n```sql\n" = 6 from by decide,
      show btCount "\n```\n\n*" = 3 from by decide,
      show btCount "*\n\n---\n" = 0 from by decide]
    simp [List.length_cons]
    ring

/-- Joining backtick-free cells yields a backtick-free line. -/
theorem md_cells_no_backtick : ∀ (r : List String),
    (∀ c ∈ r, no_backtick c) → btCount (md_cells r) = 0 := by
  intro r
  induction r with
  | nil => intro _; rfl
  | cons c cs ih =>
    intro h
    cases cs with
    | nil => exact btCount_of_no_backtick (h c (List.mem_cons_self c []))
    | cons c2 cs2 =>
      have : btCount (md_cells (c :: c2 :: cs2)) =
          btCount c + btCount " | " + btCount (md_cells (c2 :: cs2)) := by
        simp [md_cells, btCount_append]
      rw [this, btCount_of_no_backtick (h c (List.mem_cons_self c _)),
        ih (fun x hx => h x (List.mem_cons_of_mem c hx))]
      decide

/-- A whole Markdown table over backtick-free cells is backtick-free. -/
theorem md_table_no_backtick : ∀ (rows : List (List String)),
    (∀ r ∈ rows, ∀ c ∈ r, no_backtick c) → btCount (md_table rows) = 0 := by
  have hrows : ∀ (rows : List (List String)),
      (∀ r ∈ rows, ∀ c ∈ r, no_backtick c) → btCount (md_rows rows) = 0 := by
    intro rows
    induction rows with
    | nil => intro _; rfl
    | cons r rs ih =>
      intro h
      have hr : btCount (md_row r) = 0 := by
        simp [md_row, btCount_append,
          md_cells_no_backtick r (h r (List.mem_cons_self r rs))]
        decide
      have : btCount (md_rows (r :: rs)) =
          btCount "\n" + btCount (md_row r) + btCount (md_rows rs) := by
        simp [md_rows, btCount_append]
      rw [this, hr, ih (fun x hx => h x (List.mem_cons_of_mem r hx))]
      decide
  intro rows h
  have hhdr : btCount (md_row table_headers) = 0 := by decide
  simp [md_table, btCount_append, hhdr, hrows rows h]
  decide

/-- With all five fields present, the summary rows are one five-cell row per
step, in input order. -/
theorem summary_rows_ok : ∀ (os : List OptStep),
    (∀ o ∈ os, step_all_present o) →
    summary_rows os = some (os.map (fun o =>
      [o.type.getD "", o.line_number.getD "", o.existing_logic.getD "",
       o.optimized_logic.getD "", o.explanation.getD ""])) := by
  intro os
  induction os with
  | nil => intro _; rfl
  | cons o t ih =>
    intro h
    obtain ⟨h1, h2, h3, h4, h5⟩ := h o (List.mem_cons_self o t)
    obtain ⟨ty, hty⟩ := Option.isSome_iff_exists.mp h1
    obtain ⟨ln, hln⟩ := Option.isSome_iff_exists.mp h2
    obtain ⟨ex, hex⟩ := Option.isSome_iff_exists.mp h3
    obtain ⟨op, hop⟩ := Option.isSome_iff_exists.mp h4
    obtain ⟨expl, hexp⟩ := Option.isSome_iff_exists.mp h5
    have hrow : summary_row o = some [ty, ln, ex, op, expl] := by
      simp [summary_row, hty, hln, hex, hop, hexp]
    simp [summary_rows, hrow, ih (fun o' ho' => h o' (List.mem_cons_of_mem o ho')),
      hty, hln, hex, hop, hexp]


set_option maxHeartbeats 1000000 in
/-- C8: for a complete record with N backtick-free steps, the Markdown report
is produced, contains exactly N fenced-code-block pairs — two ` ```sql `
openers and two ` ``` ` closers per step, 12 backticks per step and none from
anywhere else — and ends with the Markdown summary table, which contributes no
fence characters and has exactly one five-column data row per step, in input
order. -/
theorem c8_markdown_structure (a : AnalysisRecord)
    (hp : ∀ o ∈ a.optimizations, step_all_present o)
    (hb : ∀ o ∈ a.optimizations, step_no_backtick o)
    (hn1 : no_backtick a.procedure_name) (hn2 : no_backtick a.complexity)
    (hn3 : no_backtick a.scope) :
    ∃ t rows, report_md a = some t ∧
      summary_rows a.optimizations = some rows ∧
      rows.length = a.optimizations.length ∧
      (∀ r ∈ rows, r.length = 5) ∧
      rows = a.optimizations.map (fun o =>
        [o.type.getD "", o.line_number.getD "", o.existing_logic.getD "",
         o.optimized_logic.getD "", o.explanation.getD ""]) ∧
      btCount t = 12 * a.optimizations.length ∧
      btCount (md_table rows) = 0 ∧
      (∃ body, t = body ++ md_table rows) := by
  have hp' : ∀ o ∈ a.optimizations, step_fields_present o := by
    intro o ho
    obtain ⟨x1, x2, x3, x4, x5⟩ := hp o ho
    exact ⟨x1, x3, x4, x5⟩
  obtain ⟨steps, hsteps, hscount⟩ := md_steps_count a.optimizations 1 hp' hb
  have hrows := summary_rows_ok a.optimizations hp
  have hcells : ∀ r ∈ a.optimizations.map (fun o =>
      [o.type.getD "", o.line_number.getD "", o.existing_logic.getD "",
       o.optimized_logic.getD "", o.explanation.getD ""]), ∀ c ∈ r, no_backtick c := by
    intro r hr c hc
    obtain ⟨o, ho, rfl⟩ := List.mem_map.mp hr
    obtain ⟨b1, b2, b3, b4, b5⟩ := hb o ho
    simp only [List.mem_cons, List.not_mem_nil, or_false] at hc
    rcases hc with rfl | rfl | rfl | rfl | rfl
    · exact b1
    · exact b2
    · exact b3
    · exact b4
    · exact b5
  have htbl : btCount (md_table (a.optimizations.map (fun o =>
      [o.type.getD "", o.line_number.getD "", o.existing_logic.getD "",
       o.optimized_logic.getD "", o.explanation.getD ""]))) = 0 :=
    md_table_no_backtick _ hcells
  have hhdr0 : btCount (md_header a) = 0 := by
    simp only [md_header, btCount_append, btCount_of_no_backtick hn1,
      btCount_of_no_backtick hn2, btCount_of_no_backtick hn3,
      show btCount "# SQL Stored Procedure Analysis Report\n\n## Procedure Name: " = 0
        from by decide,
      show btCount "\n\n## Complexity:\n" = 0 from by decide,
      show btCount "\n\n## Scope:\n" = 0 from by decide,
      show btCount "\n\n## Optimization Steps:\n" = 0 from by decide]
  refine ⟨md_header a ++ steps ++ "\n## Summary Table:\n\n" ++
      md_table (a.optimizations.map (fun o =>
        [o.type.getD "", o.line_number.getD "", o.existing_logic.getD "",
         o.optimized_logic.getD "", o.explanation.getD ""])),
    a.optimizations.map (fun o =>
        [o.type.getD "", o.line_number.getD "", o.existing_logic.getD "",
         o.optimized_logic.getD "", o.explanation.getD ""]),
    ?_, hrows, by simp, ?_, rfl, ?_, ?_,
    ⟨md_header a ++ steps ++ "\n## Summary Table:\n\n", rfl⟩⟩
  · simp [report_md, hrows, hsteps]
  · intro r hr
    obtain ⟨o, _, rfl⟩ := List.mem_map.mp hr
    rfl
  · simp only [btCount_append, hhdr0, hscount, htbl,
      show btCount "\n## Summary Table:\n\n" = 0 from by decide]
    omega
  · exact htbl

theorem c8_markdown_structure_witness :
    (report_md two_step_record).isSome ∧
    btCount ((report_md two_step_record).getD "") = 24 := by
  obtain ⟨t, rows, ht, _, _, _, _, hcnt, _, _⟩ :=
    c8_markdown_structure two_step_record (by decide) (by decide) (by decide)
      (by decide) (by decide)
  refine ⟨by rw [ht]; rfl, ?_⟩
  rw [ht]
  simpa using hcnt
